import Mathlib

/-!
Verification of the SaveKnight desktop detection-and-sync front-end
(`src/src/App.tsx`). The data model mirrors the TypeScript interfaces
`DetectedGame`, `DetectedSavePath`, `GameProfile`; the operational code
(`handleUpload`, `toggleGameSelection`, `formatBytes`, session state
transitions) is embedded as pure functions with explicit state passing.
External Tauri commands (`create_game_profile`, `upload_saves`) are
modelled as a supplied environment of pure oracles.
-/

namespace SaveKnight

/-- Mirrors `interface GameProfile` in App.tsx (lines 28-32). -/
structure GameProfile where
  id : String
  name : String
  platform : String
deriving DecidableEq, Repr

/-- Mirrors `interface DetectedSavePath` in App.tsx (lines 13-19).
The TypeScript field `exists` is spelled `exists_` because `exists` is
reserved in Lean. Sizes and counts are JS numbers holding non-negative
integers, embedded as `Nat`. -/
structure DetectedSavePath where
  pattern : String
  resolved_path : String
  exists_ : Bool
  file_count : Nat
  total_size_bytes : Nat
deriving DecidableEq, Repr

/-- Mirrors `interface DetectedGame` in App.tsx (lines 6-11). -/
structure DetectedGame where
  name : String
  paths : List DetectedSavePath
  total_size_bytes : Nat
  last_modified : Option String
deriving DecidableEq, Repr

/-- The unit array `sizes = ['B', 'KB', 'MB', 'GB']` of `formatBytes`
(App.tsx line 37). -/
def sizes : List String := ["B", "KB", "MB", "GB"]

/-- Embeds `formatBytes` (App.tsx lines 34-40). The JS floating-point
index computation `Math.floor(Math.log(bytes) / Math.log(1024))` is
embedded as the exact integer logarithm `Nat.log 1024 bytes`; the
two-decimal float rendering `parseFloat((bytes / 1024**i).toFixed(2))`
is embedded as the truncated natural quotient rendered with `toString`
(the claims under verification concern only the unit suffix and the
index bounds, not the decimal rendering). Indexing `sizes[i]` out of
bounds yields JS `undefined` (no defined unit); that case is embedded
as `none`. -/
def formatBytes (bytes : Nat) : Option String :=
  if bytes = 0 then some "0 B"
  else
    (sizes.get? (Nat.log 1024 bytes)).map
      (fun u => toString (bytes / 1024 ^ Nat.log 1024 bytes) ++ " " ++ u)

/-- Embeds `toggleGameSelection` (App.tsx lines 217-227): copy the
selection set, delete the name if present, otherwise add it. The JS
`Set<string>` is embedded as `Finset String` (the claims concern
membership, not insertion order). -/
def toggleGameSelection (sel : Finset String) (gameName : String) : Finset String :=
  if gameName ∈ sel then sel.erase gameName else insert gameName sel

/-- The environment of external Tauri commands used by `handleUpload`:
`invoke('create_game_profile', {name, platform})` either returns the
created profile or rejects (`none`), and
`invoke('upload_saves', {games: [game], gameProfileId})` either resolves
(`true`) or rejects (`false`). Both are modelled as pure oracles. -/
structure UploadEnv where
  create_game_profile : String → String → Option GameProfile
  upload_saves : DetectedGame → String → Bool

/-- Embeds JS `String.prototype.toLowerCase` as per-character lowering
of the string's character data (`Char.toLower` lowers letters the same
way JS does on the ASCII game names in play). -/
def toLowerCase (s : String) : String := ⟨s.data.map Char.toLower⟩

/-- The profile lookup of App.tsx line 170:
`gameProfiles.find((p) => p.name.toLowerCase() === game.name.toLowerCase())`. -/
def lookupProfile (gameProfiles : List GameProfile) (gameName : String) : Option GameProfile :=
  gameProfiles.find? (fun p => toLowerCase p.name == toLowerCase gameName)

/-- The mutable state accumulated by one run of `handleUpload`
(App.tsx lines 155-215): the React `gameProfiles` state as updated by
`setGameProfiles((prev) => [...prev, newProfile])`, the `successCount`
and `failCount` counters, plus instrumentation recording which
`create_game_profile` and `upload_saves` calls were issued (in order). -/
structure RunState where
  gameProfiles : List GameProfile
  successCount : Nat
  failCount : Nat
  createCalls : List String
  uploadCalls : List (String × String)
deriving DecidableEq, Repr

/-- One iteration of the `for (const game of gamesToUpload)` loop
(App.tsx lines 169-199). `profiles0` is the `gameProfiles` closure
variable captured when `handleUpload` started: the `find` on line 170
always consults it, while `setGameProfiles` on line 179 appends to the
accumulated React state `st.gameProfiles`. A failed profile creation
records the failure and `continue`s; a found-or-created profile leads
to an `upload_saves` call whose rejection is caught per game. -/
def processGame (env : UploadEnv) (profiles0 : List GameProfile)
    (st : RunState) (game : DetectedGame) : RunState :=
  match lookupProfile profiles0 game.name with
  | some profile =>
      let st := { st with uploadCalls := st.uploadCalls ++ [(game.name, profile.id)] }
      if env.upload_saves game profile.id then
        { st with successCount := st.successCount + 1 }
      else
        { st with failCount := st.failCount + 1 }
  | none =>
      match env.create_game_profile game.name "PC" with
      | some newProfile =>
          let st := { st with
            createCalls := st.createCalls ++ [game.name],
            gameProfiles := st.gameProfiles ++ [newProfile],
            uploadCalls := st.uploadCalls ++ [(game.name, newProfile.id)] }
          if env.upload_saves game newProfile.id then
            { st with successCount := st.successCount + 1 }
          else
            { st with failCount := st.failCount + 1 }
      | none =>
          { st with
            createCalls := st.createCalls ++ [game.name],
            failCount := st.failCount + 1 }

/-- `gamesToUpload = detectedGames.filter((g) => selectedGames.has(g.name))`
(App.tsx line 167). -/
def gamesToUpload (detectedGames : List DetectedGame) (selectedGames : Finset String) :
    List DetectedGame :=
  detectedGames.filter (fun g => decide (g.name ∈ selectedGames))

/-- The batch portion of `handleUpload` (App.tsx lines 163-199): the
per-game loop run over `gamesToUpload`, starting from the captured
profile cache and zeroed counters. -/
def handleUploadRun (env : UploadEnv) (detectedGames : List DetectedGame)
    (selectedGames : Finset String) (profiles0 : List GameProfile) : RunState :=
  (gamesToUpload detectedGames selectedGames).foldl (processGame env profiles0)
    { gameProfiles := profiles0, successCount := 0, failCount := 0,
      createCalls := [], uploadCalls := [] }

/-- The component state touched by the operations under verification:
`detectedGames`, `selectedGames` and `gameProfiles` (App.tsx lines 44-46). -/
structure AppState where
  detectedGames : List DetectedGame
  selectedGames : Finset String
  gameProfiles : List GameProfile
deriving DecidableEq

/-- Embeds `handleUpload` (App.tsx lines 155-215) at the component level:
if nothing is selected it returns early (line 156-159) leaving the state
untouched; otherwise it runs the batch, stores the appended profile cache,
and clears the selection (`setSelectedGames(new Set())`, line 201). The
`RunState` of the batch (or `none` on early return) is returned alongside
for observation. -/
def handleUpload (env : UploadEnv) (s : AppState) : AppState × Option RunState :=
  if s.selectedGames.card = 0 then (s, none)
  else
    let run := handleUploadRun env s.detectedGames s.selectedGames s.gameProfiles
    ({ s with gameProfiles := run.gameProfiles, selectedGames := ∅ }, some run)

/-- The outcome of one game of the batch as a pure function of the
environment and the captured cache: `true` iff the game's upload call
resolves (profile found in the captured cache, or created successfully,
and `upload_saves` succeeds). -/
def gameOutcome (env : UploadEnv) (profiles0 : List GameProfile) (game : DetectedGame) : Bool :=
  match lookupProfile profiles0 game.name with
  | some profile => env.upload_saves game profile.id
  | none =>
      match env.create_game_profile game.name "PC" with
      | some np => env.upload_saves game np.id
      | none => false

/-- The profile appended to the cache on behalf of one game, if any:
the freshly created profile when the lookup in the captured cache missed
and creation succeeded. -/
def createdProfile (env : UploadEnv) (profiles0 : List GameProfile) (game : DetectedGame) :
    Option GameProfile :=
  match lookupProfile profiles0 game.name with
  | some _ => none
  | none => env.create_game_profile game.name "PC"

/-- The `upload_saves` call issued on behalf of one game, if any:
`(game name, profile id)` when a profile was found in the captured cache
or created successfully; `none` when profile creation failed. -/
def attemptedUpload (env : UploadEnv) (profiles0 : List GameProfile) (game : DetectedGame) :
    Option (String × String) :=
  match lookupProfile profiles0 game.name with
  | some profile => some (game.name, profile.id)
  | none => (env.create_game_profile game.name "PC").map (fun np => (game.name, np.id))

/-- Modelled from the spec: the Scanner (spec §4.2) lives in the Tauri
backend invoked as `scan_games` and is not part of src/; only its output
interfaces appear in App.tsx. Per the spec, `scan_path` maps one resolved
path to a `DetectedSavePath`: a missing path contributes
`file_count = 0, total_size_bytes = 0, exists = false`, an existing path
contributes the count and summed sizes of the files found under it. The
filesystem is supplied as an oracle from resolved path to the list of
file sizes found there (`none` when the path does not exist). -/
def scan_path (fs : String → Option (List Nat)) (pat : String) (rp : String) :
    DetectedSavePath :=
  match fs rp with
  | none =>
      { pattern := pat, resolved_path := rp, exists_ := false,
        file_count := 0, total_size_bytes := 0 }
  | some fileSizes =>
      { pattern := pat, resolved_path := rp, exists_ := true,
        file_count := fileSizes.length, total_size_bytes := fileSizes.sum }
/-- Modelled from the spec: the Scanner's per-game aggregation (spec §3,
§4.2) — `DetectedGame` is rebuilt fresh from its scanned paths, its
`total_size_bytes` the sum across paths. `resolved` pairs each pattern
with the concrete path it resolved to; `lm` is the aggregated
latest-modification timestamp (opaque here). -/
def scanGame (fs : String → Option (List Nat)) (name : String)
    (resolved : List (String × String)) (lm : Option String) : DetectedGame :=
  let paths := resolved.map (fun pr => scan_path fs pr.1 pr.2)
  { name := name, paths := paths,
    total_size_bytes := (paths.map (·.total_size_bytes)).sum,
    last_modified := lm }
/-- Modelled from the spec: AuthSession (spec §4.3) lives in the Tauri
backend and is not part of src/. Its refresh bookkeeping: whether a
refresh is currently in flight, and how many refresh calls have been
issued to the remote service. -/
structure AuthRefreshState where
  refreshInFlight : Bool
  refreshCalls : Nat
deriving DecidableEq, Repr
/-- Modelled from the spec: `ensure_valid_token` (spec §4.3). When the
cached token is within the refresh threshold of expiry (`nearExpiry`),
a caller either starts the single refresh (issuing one remote call,
returned flag `true`) or — when a refresh is already in flight — awaits
it without issuing a duplicate (flag `false`). The spec's serialization
requirement makes the check-and-start atomic, so a concurrent execution
of two callers is an interleaving of these atomic steps. -/
def ensure_valid_token (nearExpiry : Bool) (s : AuthRefreshState) :
    AuthRefreshState × Bool :=
  if nearExpiry then
    if s.refreshInFlight then (s, false)
    else ({ refreshInFlight := true, refreshCalls := s.refreshCalls + 1 }, true)
  else (s, false)
/-- The operations available while an authenticated session lasts
(App.tsx renders them only while `is_authenticated`): re-scanning
(`handleScan`, which replaces `detectedGames`), toggling and bulk
changing the selection (`toggleGameSelection`, `selectAll`,
`deselectAll`), and running a backup batch (`handleUpload`).
`checkAuth`/`loadGameProfiles` run at session start and `handleLogout`
ends the session, so neither is an in-session event. -/
inductive SessionEvent where
  | scan (games : List DetectedGame)
  | toggle (name : String)
  | selectAll
  | deselectAll
  | upload (env : UploadEnv)
/-- The state transition of one in-session event (App.tsx lines 138-153,
217-235, 155-215). -/
def stepEvent (s : AppState) : SessionEvent → AppState
  | SessionEvent.scan games => { s with detectedGames := games }
  | SessionEvent.toggle n => { s with selectedGames := toggleGameSelection s.selectedGames n }
  | SessionEvent.selectAll =>
      { s with selectedGames := (s.detectedGames.map (·.name)).toFinset }
  | SessionEvent.deselectAll => { s with selectedGames := ∅ }
  | SessionEvent.upload env => (handleUpload env s).1

theorem processGame_successCount (env : UploadEnv) (profiles0 : List GameProfile)
    (st : RunState) (game : DetectedGame) :
    (processGame env profiles0 st game).successCount
      = st.successCount + (if gameOutcome env profiles0 game then 1 else 0) := by
  unfold processGame gameOutcome
  cases h : lookupProfile profiles0 game.name with
  | some profile => cases h3 : env.upload_saves game profile.id <;> simp [h3]
  | none =>
      cases h2 : env.create_game_profile game.name "PC" with
      | some np => cases h3 : env.upload_saves game np.id <;> simp [h3]
      | none => simp

theorem processGame_failCount (env : UploadEnv) (profiles0 : List GameProfile)
    (st : RunState) (game : DetectedGame) :
    (processGame env profiles0 st game).failCount
      = st.failCount + (if gameOutcome env profiles0 game then 0 else 1) := by
  unfold processGame gameOutcome
  cases h : lookupProfile profiles0 game.name with
  | some profile => cases h3 : env.upload_saves game profile.id <;> simp [h3]
  | none =>
      cases h2 : env.create_game_profile game.name "PC" with
      | some np => cases h3 : env.upload_saves game np.id <;> simp [h3]
      | none => simp

theorem processGame_gameProfiles (env : UploadEnv) (profiles0 : List GameProfile)
    (st : RunState) (game : DetectedGame) :
    (processGame env profiles0 st game).gameProfiles
      = st.gameProfiles ++ (createdProfile env profiles0 game).toList := by
  unfold processGame createdProfile
  cases h : lookupProfile profiles0 game.name with
  | some profile => cases h3 : env.upload_saves game profile.id <;> simp [h3]
  | none =>
      cases h2 : env.create_game_profile game.name "PC" with
      | some np => cases h3 : env.upload_saves game np.id <;> simp [h3]
      | none => simp

theorem processGame_createCalls (env : UploadEnv) (profiles0 : List GameProfile)
    (st : RunState) (game : DetectedGame) :
    (processGame env profiles0 st game).createCalls
      = st.createCalls
        ++ (if (lookupProfile profiles0 game.name).isNone then [game.name] else []) := by
  unfold processGame
  cases h : lookupProfile profiles0 game.name with
  | some profile => cases h3 : env.upload_saves game profile.id <;> simp [h3]
  | none =>
      cases h2 : env.create_game_profile game.name "PC" with
      | some np => cases h3 : env.upload_saves game np.id <;> simp [h3]
      | none => simp

theorem processGame_uploadCalls (env : UploadEnv) (profiles0 : List GameProfile)
    (st : RunState) (game : DetectedGame) :
    (processGame env profiles0 st game).uploadCalls
      = st.uploadCalls ++ (attemptedUpload env profiles0 game).toList := by
  unfold processGame attemptedUpload
  cases h : lookupProfile profiles0 game.name with
  | some profile => cases h3 : env.upload_saves game profile.id <;> simp [h3]
  | none =>
      cases h2 : env.create_game_profile game.name "PC" with
      | some np => cases h3 : env.upload_saves game np.id <;> simp [h3]
      | none => simp

theorem foldl_processGame_successCount (env : UploadEnv) (profiles0 : List GameProfile) :
    ∀ (games : List DetectedGame) (st : RunState),
      (games.foldl (processGame env profiles0) st).successCount
        = st.successCount + games.countP (fun g => gameOutcome env profiles0 g) := by
  intro games
  induction games with
  | nil => intro st; simp
  | cons g gs ih =>
      intro st
      rw [List.foldl_cons, ih, processGame_successCount, List.countP_cons]
      simp only [Nat.add_assoc, Nat.add_comm (if gameOutcome env profiles0 g then 1 else 0)]

theorem foldl_processGame_failCount (env : UploadEnv) (profiles0 : List GameProfile) :
    ∀ (games : List DetectedGame) (st : RunState),
      (games.foldl (processGame env profiles0) st).failCount
        = st.failCount + games.countP (fun g => !gameOutcome env profiles0 g) := by
  intro games
  induction games with
  | nil => intro st; simp
  | cons g gs ih =>
      intro st
      rw [List.foldl_cons, ih, processGame_failCount, List.countP_cons]
      cases h : gameOutcome env profiles0 g <;> simp [h, Nat.add_assoc, Nat.add_comm 1]

theorem foldl_processGame_gameProfiles (env : UploadEnv) (profiles0 : List GameProfile) :
    ∀ (games : List DetectedGame) (st : RunState),
      (games.foldl (processGame env profiles0) st).gameProfiles
        = st.gameProfiles ++ games.filterMap (createdProfile env profiles0) := by
  intro games
  induction games with
  | nil => intro st; simp
  | cons g gs ih =>
      intro st
      rw [List.foldl_cons, ih, processGame_gameProfiles]
      cases h : createdProfile env profiles0 g <;>
        simp [h, List.filterMap_cons, List.append_assoc]

theorem foldl_processGame_createCalls (env : UploadEnv) (profiles0 : List GameProfile) :
    ∀ (games : List DetectedGame) (st : RunState),
      (games.foldl (processGame env profiles0) st).createCalls
        = st.createCalls
          ++ (games.filter (fun g => (lookupProfile profiles0 g.name).isNone)).map (·.name) := by
  intro games
  induction games with
  | nil => intro st; simp
  | cons g gs ih =>
      intro st
      rw [List.foldl_cons, ih, processGame_createCalls]
      cases h : (lookupProfile profiles0 g.name).isNone <;>
        simp [h, List.filter_cons, List.append_assoc]

theorem foldl_processGame_uploadCalls (env : UploadEnv) (profiles0 : List GameProfile) :
    ∀ (games : List DetectedGame) (st : RunState),
      (games.foldl (processGame env profiles0) st).uploadCalls
        = st.uploadCalls ++ games.filterMap (attemptedUpload env profiles0) := by
  intro games
  induction games with
  | nil => intro st; simp
  | cons g gs ih =>
      intro st
      rw [List.foldl_cons, ih, processGame_uploadCalls]
      cases h : attemptedUpload env profiles0 g <;>
        simp [h, List.filterMap_cons, List.append_assoc]

theorem handleUploadRun_successCount (env : UploadEnv) (detected : List DetectedGame)
    (sel : Finset String) (profiles0 : List GameProfile) :
    (handleUploadRun env detected sel profiles0).successCount
      = (gamesToUpload detected sel).countP (fun g => gameOutcome env profiles0 g) := by
  unfold handleUploadRun
  rw [foldl_processGame_successCount]
  simp

theorem handleUploadRun_failCount (env : UploadEnv) (detected : List DetectedGame)
    (sel : Finset String) (profiles0 : List GameProfile) :
    (handleUploadRun env detected sel profiles0).failCount
      = (gamesToUpload detected sel).countP (fun g => !gameOutcome env profiles0 g) := by
  unfold handleUploadRun
  rw [foldl_processGame_failCount]
  simp

theorem handleUploadRun_gameProfiles (env : UploadEnv) (detected : List DetectedGame)
    (sel : Finset String) (profiles0 : List GameProfile) :
    (handleUploadRun env detected sel profiles0).gameProfiles
      = profiles0 ++ (gamesToUpload detected sel).filterMap (createdProfile env profiles0) := by
  unfold handleUploadRun
  rw [foldl_processGame_gameProfiles]

theorem handleUploadRun_createCalls (env : UploadEnv) (detected : List DetectedGame)
    (sel : Finset String) (profiles0 : List GameProfile) :
    (handleUploadRun env detected sel profiles0).createCalls
      = ((gamesToUpload detected sel).filter
          (fun g => (lookupProfile profiles0 g.name).isNone)).map (·.name) := by
  unfold handleUploadRun
  rw [foldl_processGame_createCalls]
  rfl

theorem handleUploadRun_uploadCalls (env : UploadEnv) (detected : List DetectedGame)
    (sel : Finset String) (profiles0 : List GameProfile) :
    (handleUploadRun env detected sel profiles0).uploadCalls
      = (gamesToUpload detected sel).filterMap (attemptedUpload env profiles0) := by
  unfold handleUploadRun
  rw [foldl_processGame_uploadCalls]
  rfl

theorem countP_add_countP_not (p : α → Bool) (l : List α) :
    l.countP p + l.countP (fun a => !p a) = l.length := by
  induction l with
  | nil => rfl
  | cons a t ih => cases h : p a <;> simp [List.countP_cons, h] <;> omega

/-- C1: every game of the batch is settled independently — each game's
outcome is a pure function `gameOutcome` of the environment and the
captured cache alone, `successCount` counts exactly the games whose
upload succeeded, `failCount` counts exactly the games that failed
(creation or upload), the two counters sum to the batch length (no game
aborts the batch), and an `upload_saves` call is issued for every game
whose profile was found or created, regardless of other games'
failures. -/
theorem handleUploadRun_counts_and_isolation (env : UploadEnv)
    (detected : List DetectedGame) (sel : Finset String) (profiles0 : List GameProfile) :
    (handleUploadRun env detected sel profiles0).successCount
        = (gamesToUpload detected sel).countP (fun g => gameOutcome env profiles0 g) ∧
    (handleUploadRun env detected sel profiles0).failCount
        = (gamesToUpload detected sel).countP (fun g => !gameOutcome env profiles0 g) ∧
    (handleUploadRun env detected sel profiles0).successCount
        + (handleUploadRun env detected sel profiles0).failCount
        = (gamesToUpload detected sel).length ∧
    (handleUploadRun env detected sel profiles0).uploadCalls
        = (gamesToUpload detected sel).filterMap (attemptedUpload env profiles0) := by
  refine ⟨handleUploadRun_successCount env detected sel profiles0,
          handleUploadRun_failCount env detected sel profiles0, ?_,
          handleUploadRun_uploadCalls env detected sel profiles0⟩
  rw [handleUploadRun_successCount, handleUploadRun_failCount]
  exact countP_add_countP_not _ _

/-- C3: the profile lookup of the backup operation is by case-insensitive
name equality against the in-memory cache — names differing only in
letter case give the same lookup result, and the lookup succeeds exactly
when some cached profile's lowercased name equals the lowercased game
name. -/
theorem lookupProfile_case_insensitive (cache : List GameProfile) (n1 n2 : String)
    (h : toLowerCase n1 = toLowerCase n2) :
    lookupProfile cache n1 = lookupProfile cache n2 ∧
    (Option.isSome (lookupProfile cache n1) ↔
      ∃ p ∈ cache, toLowerCase p.name = toLowerCase n1) := by
  constructor
  · unfold lookupProfile
    simp only [h]
  · unfold lookupProfile
    rw [List.find?_isSome]
    constructor
    · rintro ⟨p, hp, hpred⟩
      exact ⟨p, hp, by simpa using hpred⟩
    · rintro ⟨p, hp, hpred⟩
      exact ⟨p, hp, by simpa using hpred⟩

/-- Witness for C3 at a concrete cache and names differing only in case. -/
theorem lookupProfile_case_insensitive_witness :
    lookupProfile [⟨"p1", "DOOM", "PC"⟩] "doom" = lookupProfile [⟨"p1", "DOOM", "PC"⟩] "Doom" ∧
    (Option.isSome (lookupProfile [⟨"p1", "DOOM", "PC"⟩] "doom") ↔
      ∃ p ∈ [(⟨"p1", "DOOM", "PC"⟩ : GameProfile)], toLowerCase p.name = toLowerCase "doom") :=
  lookupProfile_case_insensitive [⟨"p1", "DOOM", "PC"⟩] "doom" "Doom" (by decide)

/-- C4: when the captured cache has no matching profile, the game's
iteration requests creation with the game's name and platform "PC";
on creation failure the game is counted failed, nothing else changes and
the loop continues with the remaining games; on creation success the new
profile is appended to the cache and an upload is issued under its id,
the counters then reflecting the upload's result. -/
theorem processGame_create_if_absent (env : UploadEnv) (profiles0 : List GameProfile)
    (st : RunState) (game : DetectedGame)
    (hnone : lookupProfile profiles0 game.name = none) :
    (env.create_game_profile game.name "PC" = none →
      processGame env profiles0 st game =
        { st with createCalls := st.createCalls ++ [game.name],
                  failCount := st.failCount + 1 }) ∧
    (∀ np, env.create_game_profile game.name "PC" = some np →
      processGame env profiles0 st game =
        (if env.upload_saves game np.id then
          { st with createCalls := st.createCalls ++ [game.name],
                    gameProfiles := st.gameProfiles ++ [np],
                    uploadCalls := st.uploadCalls ++ [(game.name, np.id)],
                    successCount := st.successCount + 1 }
         else
          { st with createCalls := st.createCalls ++ [game.name],
                    gameProfiles := st.gameProfiles ++ [np],
                    uploadCalls := st.uploadCalls ++ [(game.name, np.id)],
                    failCount := st.failCount + 1 })) ∧
    (env.create_game_profile game.name "PC" = none →
      ∀ rest : List DetectedGame,
        (game :: rest).foldl (processGame env profiles0) st =
          rest.foldl (processGame env profiles0)
            { st with createCalls := st.createCalls ++ [game.name],
                      failCount := st.failCount + 1 }) := by
  refine ⟨?_, ?_, ?_⟩
  · intro hc
    unfold processGame
    rw [hnone, hc]
  · intro np hc
    unfold processGame
    rw [hnone, hc]
  · intro hc rest
    rw [List.foldl_cons]
    congr 1
    unfold processGame
    rw [hnone, hc]


/-- Witness for C4: with an environment whose profile creation always
fails, a game absent from an empty cache is counted failed and only the
create call is recorded. -/
theorem processGame_create_if_absent_witness :
    processGame ⟨fun _ _ => none, fun _ _ => true⟩ [] ⟨[], 0, 0, [], []⟩
        ⟨"Hades", [], 0, none⟩ = ⟨[], 0, 1, ["Hades"], []⟩ :=
  (processGame_create_if_absent ⟨fun _ _ => none, fun _ _ => true⟩ [] ⟨[], 0, 0, [], []⟩
      ⟨"Hades", [], 0, none⟩ rfl).1 rfl

/-- C5: whenever a nonempty selection is submitted, the batch runs and the
selection state is cleared afterwards, whatever the per-game outcomes
(the environment, hence any pattern of failures, is universally
quantified). -/
theorem handleUpload_clears_selection (env : UploadEnv) (s : AppState)
    (h : s.selectedGames.card ≠ 0) :
    ((handleUpload env s).1).selectedGames = ∅ := by
  rw [handleUpload, if_neg h]

/-- Witness for C5 at a concrete state with one selected game. -/
theorem handleUpload_clears_selection_witness :
    ((handleUpload ⟨fun _ _ => none, fun _ _ => true⟩
        ⟨[], {"Hades"}, []⟩).1).selectedGames = ∅ :=
  handleUpload_clears_selection ⟨fun _ _ => none, fun _ _ => true⟩
    ⟨[], {"Hades"}, []⟩ (by decide)

/-- C9: toggling a game's selection is an involution — toggling the same
name twice restores the original set, one toggle flips that name's
membership, and every other name's membership is untouched. -/
theorem toggleGameSelection_involution (s : Finset String) (g : String) :
    toggleGameSelection (toggleGameSelection s g) g = s ∧
    (g ∈ toggleGameSelection s g ↔ ¬ g ∈ s) ∧
    ∀ x : String, x ≠ g → (x ∈ toggleGameSelection s g ↔ x ∈ s) := by
  by_cases hg : g ∈ s
  · have h1 : toggleGameSelection s g = s.erase g := if_pos hg
    refine ⟨?_, ?_, ?_⟩
    · rw [h1, toggleGameSelection, if_neg (Finset.not_mem_erase g s), Finset.insert_erase hg]
    · rw [h1]; simp [hg]
    · intro x hx; rw [h1]; simp [Finset.mem_erase, hx]
  · have h1 : toggleGameSelection s g = insert g s := if_neg hg
    refine ⟨?_, ?_, ?_⟩
    · rw [h1, toggleGameSelection, if_pos (Finset.mem_insert_self g s), Finset.erase_insert hg]
    · rw [h1]; simp [hg]
    · intro x hx; rw [h1]; simp [Finset.mem_insert, hx]

/-- Witness for C9 at a concrete selection set and name. -/
theorem toggleGameSelection_involution_witness :
    toggleGameSelection (toggleGameSelection ({"Hades"} : Finset String) "Celeste") "Celeste"
      = {"Hades"} :=
  (toggleGameSelection_involution {"Hades"} "Celeste").1

/-- C10: `formatBytes 0` is exactly "0 B"; for positive byte counts below
1024^4 the result carries one of the four units as its final segment;
at or above 1024^4 the computed index reaches past the end of the unit
array, so no defined unit (hence no defined result string) is
produced. -/
theorem formatBytes_unit_bounds (b : Nat) :
    formatBytes 0 = some "0 B" ∧
    (0 < b → b < 1024 ^ 4 →
      ∃ u, u ∈ sizes ∧ ∃ t, formatBytes b = some (t ++ u)) ∧
    (1024 ^ 4 ≤ b → sizes.length ≤ Nat.log 1024 b ∧ formatBytes b = none) := by
  refine ⟨rfl, ?_, ?_⟩
  · intro hb hlt
    have hne : b ≠ 0 := hb.ne'
    have hlog : Nat.log 1024 b < 4 := Nat.log_lt_of_lt_pow hne hlt
    have hlen : Nat.log 1024 b < sizes.length := by simpa [sizes] using hlog
    refine ⟨sizes.get ⟨Nat.log 1024 b, hlen⟩, List.get_mem _ _ _, ?_⟩
    refine ⟨toString (b / 1024 ^ Nat.log 1024 b) ++ " ", ?_⟩
    rw [formatBytes, if_neg hne, List.get?_eq_get hlen]
    rfl
  · intro hge
    have hne : b ≠ 0 := by
      intro h0
      rw [h0] at hge
      exact absurd hge (by norm_num)
    have hlog : 4 ≤ Nat.log 1024 b := Nat.le_log_of_pow_le (by norm_num) hge
    refine ⟨by simpa [sizes] using hlog, ?_⟩
    rw [formatBytes, if_neg hne, List.get?_eq_none.mpr (by simpa [sizes] using hlog)]
    rfl

/-- Witness for C10 at 2048 bytes (falls in the "KB" band). -/
theorem formatBytes_unit_bounds_witness :
    ∃ u, u ∈ sizes ∧ ∃ t, formatBytes 2048 = some (t ++ u) :=
  (formatBytes_unit_bounds 2048).2.1 (by decide) (by decide)



/-- C6: every `DetectedGame` produced by a scan satisfies the aggregation
invariant: its `total_size_bytes` equals the sum of `total_size_bytes`
over its `paths`. -/
theorem scanGame_total_size_invariant (fs : String → Option (List Nat))
    (name : String) (resolved : List (String × String)) (lm : Option String) :
    (scanGame fs name resolved lm).total_size_bytes
      = ((scanGame fs name resolved lm).paths.map (·.total_size_bytes)).sum := rfl



/-- C8: two concurrent callers that both require a near-expiry token
issue exactly one refresh call between them — whichever caller runs its
atomic check first starts the refresh, and the other awaits it instead
of issuing a duplicate (the two interleavings are symmetric since both
callers perform the same atomic step). -/
theorem token_refresh_serialized (s0 : AuthRefreshState)
    (h : s0.refreshInFlight = false) :
    ((ensure_valid_token true ((ensure_valid_token true s0).1)).1).refreshCalls
        = s0.refreshCalls + 1 ∧
    (ensure_valid_token true s0).2 = true ∧
    (ensure_valid_token true ((ensure_valid_token true s0).1)).2 = false := by
  simp [ensure_valid_token, h]

/-- Witness for C8 from the idle state with no refresh issued yet. -/
theorem token_refresh_serialized_witness :
    ((ensure_valid_token true ((ensure_valid_token true ⟨false, 0⟩).1)).1).refreshCalls
        = 0 + 1 ∧
    (ensure_valid_token true (⟨false, 0⟩ : AuthRefreshState)).2 = true ∧
    (ensure_valid_token true ((ensure_valid_token true ⟨false, 0⟩).1)).2 = false :=
  token_refresh_serialized ⟨false, 0⟩ rfl



theorem stepEvent_gameProfiles_extends (s : AppState) (e : SessionEvent) :
    ∃ tail, (stepEvent s e).gameProfiles = s.gameProfiles ++ tail := by
  cases e with
  | scan games => exact ⟨[], by simp [stepEvent]⟩
  | toggle n => exact ⟨[], by simp [stepEvent]⟩
  | selectAll => exact ⟨[], by simp [stepEvent]⟩
  | deselectAll => exact ⟨[], by simp [stepEvent]⟩
  | upload env =>
      by_cases hc : s.selectedGames.card = 0
      · exact ⟨[], by simp [stepEvent, handleUpload, hc]⟩
      · refine ⟨(gamesToUpload s.detectedGames s.selectedGames).filterMap
          (createdProfile env s.gameProfiles), ?_⟩
        show ((handleUpload env s).1).gameProfiles = _
        rw [handleUpload, if_neg hc]
        exact handleUploadRun_gameProfiles env s.detectedGames s.selectedGames s.gameProfiles

/-- C7: across any sequence of in-session operations the profile cache
only ever grows by appended entries — the final cache extends the initial
one — and of the individual operations only the backup orchestration
(`upload`) touches it at all: scanning and every selection change leave
the cache identically unchanged. -/
theorem profile_cache_append_only (events : List SessionEvent) (s0 : AppState) :
    (∃ tail, (events.foldl stepEvent s0).gameProfiles = s0.gameProfiles ++ tail) ∧
    (∀ gs, (stepEvent s0 (SessionEvent.scan gs)).gameProfiles = s0.gameProfiles) ∧
    (∀ n, (stepEvent s0 (SessionEvent.toggle n)).gameProfiles = s0.gameProfiles) ∧
    (stepEvent s0 SessionEvent.selectAll).gameProfiles = s0.gameProfiles ∧
    (stepEvent s0 SessionEvent.deselectAll).gameProfiles = s0.gameProfiles := by
  refine ⟨?_, fun gs => rfl, fun n => rfl, rfl, rfl⟩
  induction events generalizing s0 with
  | nil => exact ⟨[], by simp⟩
  | cons e es ih =>
      obtain ⟨t1, ht1⟩ := stepEvent_gameProfiles_extends s0 e
      obtain ⟨t2, ht2⟩ := ih (stepEvent s0 e)
      exact ⟨t1 ++ t2, by rw [List.foldl_cons, ht2, ht1, List.append_assoc]⟩

theorem createdProfile_name (env : UploadEnv) (profiles0 : List GameProfile)
    (hcontract : ∀ n pf p, env.create_game_profile n pf = some p → p.name = n)
    (a : DetectedGame) (p : GameProfile)
    (hcp : createdProfile env profiles0 a = some p) : p.name = a.name := by
  unfold createdProfile at hcp
  cases hl : lookupProfile profiles0 a.name with
  | some q => rw [hl] at hcp; exact absurd hcp (by simp)
  | none => rw [hl] at hcp; exact hcontract _ _ _ hcp

theorem find?_filterMap_createdProfile (env : UploadEnv) (profiles0 : List GameProfile)
    (g : DetectedGame) (np : GameProfile)
    (hnone : lookupProfile profiles0 g.name = none)
    (hcreate : env.create_game_profile g.name "PC" = some np)
    (hcontract : ∀ n pf p, env.create_game_profile n pf = some p → p.name = n) :
    ∀ L : List DetectedGame,
      L.filter (fun h => toLowerCase h.name == toLowerCase g.name) = [g] →
      (L.filterMap (createdProfile env profiles0)).find?
          (fun p => toLowerCase p.name == toLowerCase g.name) = some np := by
  intro L
  induction L with
  | nil => intro hf; exact absurd hf (by simp)
  | cons a t ih =>
      intro hf
      by_cases ha : (toLowerCase a.name == toLowerCase g.name) = true
      · rw [List.filter_cons, if_pos ha] at hf
        have hag : a = g := (List.cons_eq_cons.mp hf).1
        subst hag
        have hcp : createdProfile env profiles0 a = some np := by
          unfold createdProfile
          rw [hnone, hcreate]
        rw [List.filterMap_cons_some hcp]
        apply List.find?_cons_of_pos
        have : np.name = a.name := hcontract _ _ _ hcreate
        rw [this]
        exact ha
      · rw [List.filter_cons, if_neg ha] at hf
        cases hcp : createdProfile env profiles0 a with
        | none => rw [List.filterMap_cons_none hcp]; exact ih hf
        | some p =>
            rw [List.filterMap_cons_some hcp]
            rw [List.find?_cons_of_neg]
            · exact ih hf
            · rw [createdProfile_name env profiles0 hcontract a p hcp]
              exact ha

/-- C2: running the backup twice in succession with the same (uniquely
named, selected, detected) game and a cache initially missing it causes
exactly one `create_game_profile` call for that name in the first run and
none in the second: the second run finds the profile appended by the
first run and issues its upload under that profile's id. `hcontract` is
the remote-service contract that a created profile carries the requested
name. -/
theorem handleUpload_idempotent_create (env : UploadEnv)
    (detected : List DetectedGame) (sel : Finset String)
    (profiles0 : List GameProfile) (g : DetectedGame) (np : GameProfile)
    (hcontract : ∀ n pf p, env.create_game_profile n pf = some p → p.name = n)
    (hbatch : (gamesToUpload detected sel).filter
        (fun h => toLowerCase h.name == toLowerCase g.name) = [g])
    (hnone : lookupProfile profiles0 g.name = none)
    (hcreate : env.create_game_profile g.name "PC" = some np) :
    (handleUploadRun env detected sel profiles0).createCalls.count g.name = 1 ∧
    (handleUploadRun env detected sel
        (handleUploadRun env detected sel profiles0).gameProfiles).createCalls.count g.name
      = 0 ∧
    (g.name, np.id) ∈ (handleUploadRun env detected sel
        (handleUploadRun env detected sel profiles0).gameProfiles).uploadCalls := by
  have hgmem : g ∈ gamesToUpload detected sel := by
    have hmemf : g ∈ (gamesToUpload detected sel).filter
        (fun h => toLowerCase h.name == toLowerCase g.name) := by
      rw [hbatch]; exact List.mem_singleton.mpr rfl
    exact List.mem_of_mem_filter hmemf
  have huniq : ∀ h ∈ gamesToUpload detected sel,
      toLowerCase h.name = toLowerCase g.name → h = g := by
    intro h hm he
    have hmemf : h ∈ (gamesToUpload detected sel).filter
        (fun x => toLowerCase x.name == toLowerCase g.name) :=
      List.mem_filter.mpr ⟨hm, by simp [he]⟩
    rw [hbatch] at hmemf
    exact List.mem_singleton.mp hmemf
  have hfound : lookupProfile (handleUploadRun env detected sel profiles0).gameProfiles g.name
      = some np := by
    rw [handleUploadRun_gameProfiles]
    unfold lookupProfile
    rw [List.find?_append]
    have h1 : profiles0.find? (fun p => toLowerCase p.name == toLowerCase g.name) = none :=
      hnone
    rw [h1, Option.none_or]
    exact find?_filterMap_createdProfile env profiles0 g np hnone hcreate hcontract _ hbatch
  refine ⟨?_, ?_, ?_⟩
  · rw [handleUploadRun_createCalls, List.count_eq_countP, List.countP_map, List.countP_filter]
    have hcongr : (gamesToUpload detected sel).countP
          (fun h => ((fun x => x == g.name) ∘ (·.name)) h
            && (lookupProfile profiles0 h.name).isNone)
        = (gamesToUpload detected sel).countP
          (fun h => toLowerCase h.name == toLowerCase g.name) := by
      apply List.countP_congr
      intro h hm
      simp only [Function.comp, Bool.and_eq_true, beq_iff_eq, Option.isNone_iff_eq_none]
      constructor
      · rintro ⟨hn, _⟩
        rw [hn]
      · intro he
        have hg : h = g := huniq h hm he
        subst hg
        exact ⟨rfl, hnone⟩
    rw [hcongr, List.countP_eq_length_filter, hbatch]
    rfl
  · rw [handleUploadRun_createCalls, List.count_eq_countP, List.countP_map, List.countP_filter]
    apply List.countP_eq_zero.mpr
    intro h hm
    simp only [Function.comp, Bool.and_eq_true, beq_iff_eq, Option.isNone_iff_eq_none, not_and]
    intro hn
    rw [hn, hfound]
    simp
  · rw [handleUploadRun_uploadCalls]
    apply List.mem_filterMap.mpr
    refine ⟨g, hgmem, ?_⟩
    unfold attemptedUpload
    rw [hfound]

/-- Witness for C2: one detected and selected game "Hades", an initially
empty cache, and a service that honours the creation contract; the first
run creates once, the second run creates nothing and uploads under the
id assigned by the first run's creation. -/
theorem handleUpload_idempotent_create_witness :
    (handleUploadRun ⟨fun n pf => some ⟨"id-" ++ n, n, pf⟩, fun _ _ => true⟩
        [⟨"Hades", [], 0, none⟩] {"Hades"} []).createCalls.count "Hades" = 1 ∧
    (handleUploadRun ⟨fun n pf => some ⟨"id-" ++ n, n, pf⟩, fun _ _ => true⟩
        [⟨"Hades", [], 0, none⟩] {"Hades"}
        (handleUploadRun ⟨fun n pf => some ⟨"id-" ++ n, n, pf⟩, fun _ _ => true⟩
          [⟨"Hades", [], 0, none⟩] {"Hades"} []).gameProfiles).createCalls.count "Hades"
      = 0 ∧
    ("Hades", "id-Hades") ∈ (handleUploadRun ⟨fun n pf => some ⟨"id-" ++ n, n, pf⟩, fun _ _ => true⟩
        [⟨"Hades", [], 0, none⟩] {"Hades"}
        (handleUploadRun ⟨fun n pf => some ⟨"id-" ++ n, n, pf⟩, fun _ _ => true⟩
          [⟨"Hades", [], 0, none⟩] {"Hades"} []).gameProfiles).uploadCalls :=
  handleUpload_idempotent_create
    ⟨fun n pf => some ⟨"id-" ++ n, n, pf⟩, fun _ _ => true⟩
    [⟨"Hades", [], 0, none⟩] {"Hades"} [] ⟨"Hades", [], 0, none⟩ ⟨"id-Hades", "Hades", "PC"⟩
    (by intro n pf p hp; injection hp with h; rw [← h])
    (by rfl) rfl rfl

end SaveKnight
